import Mathlib

/-!
# Verification of the litesql-ha Python client

Shallow embedding of the replica-consistency layer, the routing connection,
the AnyValue converter and the hand-rolled wire codec of the `litesql_ha`
package, together with theorems settling the specification claims.

Conventions:
* Python byte strings are modelled as `List Nat` (each entry one byte value);
* Python `str` is modelled as Lean `String` where the content matters and as
  raw UTF-8 bytes (`List Nat`) inside the wire codec, whose decoding step is
  the external `bytes.decode("utf-8")`;
* Python `int` is Lean `Int` (arbitrary precision in both languages);
* external effects (SQLite statement execution, NATS, the bookkeeping-table
  read) enter the model as explicit inputs describing their outcome.
-/

namespace LitesqlHA

/-! ## Replica manager (`embedded_replicas.py`) -/

/-- Embedding of `ReplicaConnection` (embedded_replicas.py, lines 23-29).
The `conn : sqlite3.Connection` field is an external handle and carries no
state relevant to the claims; `dsn` and `txseq` are kept. -/
structure ReplicaConnection where
  dsn : String
  txseq : Int
deriving Repr, DecidableEq

/-- The payload of a replication message after `json.loads` succeeded:
a JSON object with optional `"sql"` and `"txseq"` members
(embedded_replicas.py, lines 176-183). -/
structure ReplMessage where
  sql : Option String
  txseq : Option Int
deriving Repr, DecidableEq

/-- Embedding of `EmbeddedReplicasManager._apply_replication_message`
(embedded_replicas.py, lines 164-186), acting on one replica.

* `msg = none` models `json.loads` (or `data.decode`) raising: the exception
  is caught and the replica is unchanged.
* `sqlOk` models the outcome of `replica.conn.execute(message["sql"])` when a
  statement is present: on failure the raised exception is caught and the
  `txseq` assignment on line 183 is never reached.
* When `"txseq"` is present and reached, it overwrites `replica.txseq`
  unconditionally (line 183). -/
def applyReplicationMessage (replica : ReplicaConnection) (msg : Option ReplMessage)
    (sqlOk : Bool) : ReplicaConnection :=
  match msg with
  | none => replica
  | some m =>
    if m.sql.isSome && !sqlOk then replica
    else
      match m.txseq with
      | some t => { replica with txseq := t }
      | none => replica

/-- Embedding of one iteration of the periodic refresh task for one replica
(`_start_txseq_updater`, embedded_replicas.py, lines 195-207). `row` is the
outcome of `SELECT received_seq FROM ha_stats ORDER BY updated_at DESC LIMIT 1`:
`some v` when a row was fetched, `none` when no row exists or the query raised
(the exception is swallowed, line 206-207). A fetched value overwrites
`replica.txseq` unconditionally (line 205). -/
def refreshTxseq (replica : ReplicaConnection) (row : Option Int) : ReplicaConnection :=
  match row with
  | some v => { replica with txseq := v }
  | none => replica

/-- The replica registry `self._replicas : Dict[str, ReplicaConnection]`,
modelled as an association list in insertion order (Python dicts preserve
insertion order and have unique keys). -/
abbrev Replicas := List (String × ReplicaConnection)

/-- Embedding of `EmbeddedReplicasManager.get_replica`
(embedded_replicas.py, lines 211-223):
`if len(self._replicas) == 1 and (not db_name or db_name == ""): return
next(iter(self._replicas.values()))` — for a `str` argument, `not db_name`
holds exactly when the string is empty — `return self._replicas.get(db_name)`. -/
def get_replica (replicas : Replicas) (dbName : String) : Option ReplicaConnection :=
  if List.length replicas = 1 ∧ dbName = "" then
    (List.head? replicas).map Prod.snd
  else
    List.lookup dbName replicas

/-- Embedding of `EmbeddedReplicasManager.is_replica_updated`
(embedded_replicas.py, lines 242-256). -/
def is_replica_updated (replicas : Replicas) (dbName : String) (txseq : Int) : Bool :=
  match get_replica replicas dbName with
  | none => false
  | some replica => replica.txseq ≥ txseq

/-- The 15 bytes of `b"SQLite format 3"`, the literal tested by
`header.startswith(...)` in `_is_sqlite_file` (embedded_replicas.py, line 266).
Note the Python literal has no trailing NUL byte. -/
def sqliteMagic : List Nat :=
  [0x53, 0x51, 0x4C, 0x69, 0x74, 0x65, 0x20, 0x66,
   0x6F, 0x72, 0x6D, 0x61, 0x74, 0x20, 0x33]

/-- The 16-byte SQLite header magic `b"SQLite format 3\x00"` with the trailing
NUL byte, as the specification describes it. -/
def sqliteMagic16 : List Nat := sqliteMagic ++ [0x00]

/-- Python `bytes.startswith`: `l.startswith(p)` holds iff the first
`len(p)` items of `l` equal `p` (false when `l` is shorter than `p`). -/
def startsWithBytes (l p : List Nat) : Bool :=
  decide (List.take p.length l = p)

/-- Embedding of `EmbeddedReplicasManager._is_sqlite_file`
(embedded_replicas.py, lines 258-268), on the file's content `file` (a byte
list): `os.path.getsize` is `file.length`, `f.read(16)` is `file.take 16`,
and the check is `header.startswith(b"SQLite format 3")`. -/
def is_sqlite_file (file : List Nat) : Bool :=
  if file.length < 100 then false
  else startsWithBytes (List.take 16 file) sqliteMagic

/-! ## Routing connection (`ha_connection.py`) -/

/-- Python `str.strip()` with no argument: remove whitespace from both ends.
SQL statements are modelled as their character sequences (`List Char`). -/
def pyStrip (s : List Char) : List Char :=
  ((s.dropWhile Char.isWhitespace).reverse.dropWhile Char.isWhitespace).reverse

/-- Python `str.upper()` on the statement text (`Char.toUpper` matches it on
the ASCII SQL keywords the check compares against). -/
def pyUpper (s : List Char) : List Char := s.map Char.toUpper

/-- Python `str.startswith(p)`. -/
def startsWithChars (s p : List Char) : Bool := decide (List.take p.length s = p)

/-- Embedding of `HAConnection._is_select_query` (ha_connection.py, lines
152-160): `trimmed = sql.strip().upper()`, then `startswith` on
`"SELECT"`, `"PRAGMA"`, `"EXPLAIN"`, `"WITH"`. -/
def is_select_query (sql : List Char) : Bool :=
  let trimmed := pyUpper (pyStrip sql)
  startsWithChars trimmed "SELECT".toList || startsWithChars trimmed "PRAGMA".toList ||
    startsWithChars trimmed "EXPLAIN".toList || startsWithChars trimmed "WITH".toList

/-- Where a statement is executed. -/
inductive Route where
  | replica
  | remote
deriving Repr, DecidableEq

/-- Embedding of the routing decision of `HAConnection.query`
(ha_connection.py, lines 72-82): `self._embedded_replica and
self._replicas_manager and self._is_select_query(sql) and
self._replicas_manager.is_replica_updated(self._client.replication_id,
self._client.txseq)` selects the local replica, every other case falls
through to the remote client. `hasReplica` is the truthiness of
`self._embedded_replica`, `hasManager` that of `self._replicas_manager`,
`replicas` the manager's registry, `replicationId`/`txseq` the client's
current replication id and last-known remote sequence number. -/
def queryRoute (hasReplica hasManager : Bool) (replicas : Replicas)
    (replicationId : String) (txseq : Int) (sql : List Char) : Route :=
  if hasReplica && hasManager && is_select_query sql &&
      is_replica_updated replicas replicationId txseq then
    Route.replica
  else
    Route.remote

/-- Embedding of the routing decision of `HAConnection.run`
(ha_connection.py, lines 116-126); the condition is textually the same as in
`HAConnection.query`. -/
def runRoute (hasReplica hasManager : Bool) (replicas : Replicas)
    (replicationId : String) (txseq : Int) (sql : List Char) : Route :=
  if hasReplica && hasManager && is_select_query sql &&
      is_replica_updated replicas replicationId txseq then
    Route.replica
  else
    Route.remote

/-! ## AnyValue converter (`client/converter.py`) -/

/-- The Python runtime values `to_any` can receive. `float` carries the
IEEE-754 double bit pattern, which the protobuf `DoubleValue` wrapper
transports verbatim; `datetime` carries an epoch instant as whole seconds
plus microseconds (Python `datetime` resolution); `other` stands for a value
of any type outside the isinstance chain of `to_any` (tagged by its type
name). Python's `bool` is a subclass of `int`; that subtyping is captured by
`isInstInt` below, not by the constructors. -/
inductive PyValue where
  | none
  | str (s : String)
  | bool (b : Bool)
  | int (i : Int)
  | float (bits : Nat)
  | datetime (seconds : Int) (micros : Nat)
  | bytes (b : List Nat)
  | bytearray (b : List Nat)
  | other (typeName : String)
deriving Repr, DecidableEq

/-- `isinstance(value, str)`. -/
def isInstStr : PyValue → Bool
  | .str _ => true
  | _ => false

/-- `isinstance(value, bool)`. -/
def isInstBool : PyValue → Bool
  | .bool _ => true
  | _ => false

/-- `isinstance(value, int)`: in Python `bool` is a subclass of `int`, so
booleans also satisfy this check. -/
def isInstInt : PyValue → Bool
  | .bool _ => true
  | .int _ => true
  | _ => false

/-- `isinstance(value, float)` (Python `bool`/`int` are not `float`). -/
def isInstFloat : PyValue → Bool
  | .float _ => true
  | _ => false

/-- `isinstance(value, datetime)`. -/
def isInstDatetime : PyValue → Bool
  | .datetime _ _ => true
  | _ => false

/-- `isinstance(value, bytes)`. -/
def isInstBytes : PyValue → Bool
  | .bytes _ => true
  | _ => false

/-- `isinstance(value, bytearray)`. -/
def isInstBytearray : PyValue → Bool
  | .bytearray _ => true
  | _ => false

/-- The wrapper message packed into a `google.protobuf.Any`. The payload is
kept structured: serializing the wrapper and parsing those bytes back is the
protobuf library's (external) job and is the identity on well-formed data.
`Timestamp` holds `(seconds, nanos)` as produced by `Timestamp.FromDatetime`. -/
inductive WrapperPayload where
  | empty
  | stringValue (s : String)
  | boolValue (b : Bool)
  | int32Value (i : Int)
  | int64Value (i : Int)
  | uint32Value (n : Nat)
  | uint64Value (n : Nat)
  | doubleValue (bits : Nat)
  | floatValue (bits : Nat)
  | bytesValue (b : List Nat)
  | timestamp (seconds : Int) (nanos : Nat)
deriving Repr, DecidableEq

/-- `TYPE_URL_PREFIX` (converter.py, line 21). -/
def TYPE_URL_PREFIX : String := "type.googleapis.com/google.protobuf."

/-- A `google.protobuf.Any` value: the type marker plus the packed wrapper. -/
structure AnyProto where
  type_url : String
  payload : WrapperPayload
deriving Repr, DecidableEq

/-- `any_proto.Pack(wrapper)`: sets `type_url` to the prefixed message name
and stores the serialized wrapper. -/
def packAny (typeName : String) (payload : WrapperPayload) : AnyProto :=
  { type_url := TYPE_URL_PREFIX ++ typeName, payload := payload }

/-- The Python exceptions the converter and the protobuf layer can raise:
`typeError` is the `TypeError` on converter.py line 65, `valueError` the
`ValueError` on converter.py line 128, `decodeError` a protobuf
`DecodeError` when an `Any` payload does not parse as the wrapper message
selected by its marker. -/
inductive ConvError where
  | typeError (msg : String)
  | valueError (msg : String)
  | decodeError
deriving Repr, DecidableEq

/-- `type(value)` rendered as a name, used in the `TypeError` message. -/
def pyTypeName : PyValue → String
  | .none => "NoneType"
  | .str _ => "str"
  | .bool _ => "bool"
  | .int _ => "int"
  | .float _ => "float"
  | .datetime _ _ => "datetime"
  | .bytes _ => "bytes"
  | .bytearray _ => "bytearray"
  | .other t => t

/-- Embedding of `to_any` (converter.py, lines 24-65): the isinstance chain
in source order — `None`, `str`, `bool`, `int` (Int32 iff within
`[-2147483648, 2147483647]`, else Int64), `float`, `datetime`
(`Timestamp.FromDatetime`: seconds since epoch plus nanosecond remainder),
`bytes`, `bytearray` — and `TypeError` for anything else. -/
def to_any (value : PyValue) : Except ConvError AnyProto :=
  if value = .none then
    .ok (packAny "Empty" .empty)
  else if isInstStr value then
    match value with
    | .str s => .ok (packAny "StringValue" (.stringValue s))
    | _ => .error (.typeError "unreachable")
  else if isInstBool value then
    match value with
    | .bool b => .ok (packAny "BoolValue" (.boolValue b))
    | _ => .error (.typeError "unreachable")
  else if isInstInt value then
    match value with
    | .int i =>
      if -2147483648 ≤ i ∧ i ≤ 2147483647 then
        .ok (packAny "Int32Value" (.int32Value i))
      else
        .ok (packAny "Int64Value" (.int64Value i))
    | _ => .error (.typeError "unreachable")
  else if isInstFloat value then
    match value with
    | .float bits => .ok (packAny "DoubleValue" (.doubleValue bits))
    | _ => .error (.typeError "unreachable")
  else if isInstDatetime value then
    match value with
    | .datetime s us => .ok (packAny "Timestamp" (.timestamp s (us * 1000)))
    | _ => .error (.typeError "unreachable")
  else if isInstBytes value then
    match value with
    | .bytes b => .ok (packAny "BytesValue" (.bytesValue b))
    | _ => .error (.typeError "unreachable")
  else if isInstBytearray value then
    match value with
    | .bytearray b => .ok (packAny "BytesValue" (.bytesValue b))
    | _ => .error (.typeError "unreachable")
  else
    .error (.typeError ("Unsupported type: " ++ pyTypeName value))

/-- `any_proto.Unpack` followed by reading the wrapper, for each wrapper
type: succeeds when the stored payload is of the expected wrapper message
type, and is a protobuf parse failure (`DecodeError`) when the payload bytes
do not parse as that message. -/
def unpackString : WrapperPayload → Except ConvError PyValue
  | .stringValue s => .ok (.str s)
  | _ => .error .decodeError

def unpackDouble : WrapperPayload → Except ConvError PyValue
  | .doubleValue bits => .ok (.float bits)
  | _ => .error .decodeError

def unpackFloat : WrapperPayload → Except ConvError PyValue
  | .floatValue bits => .ok (.float bits)
  | _ => .error .decodeError

def unpackInt64 : WrapperPayload → Except ConvError PyValue
  | .int64Value i => .ok (.int i)
  | _ => .error .decodeError

def unpackInt32 : WrapperPayload → Except ConvError PyValue
  | .int32Value i => .ok (.int i)
  | _ => .error .decodeError

def unpackUInt64 : WrapperPayload → Except ConvError PyValue
  | .uint64Value n => .ok (.int n)
  | _ => .error .decodeError

def unpackUInt32 : WrapperPayload → Except ConvError PyValue
  | .uint32Value n => .ok (.int n)
  | _ => .error .decodeError

def unpackBool : WrapperPayload → Except ConvError PyValue
  | .boolValue b => .ok (.bool b)
  | _ => .error .decodeError

/-- `Timestamp.ToDatetime` truncates nanoseconds to the microsecond
resolution of Python `datetime`. -/
def unpackTimestamp : WrapperPayload → Except ConvError PyValue
  | .timestamp s ns => .ok (.datetime s (ns / 1000))
  | _ => .error .decodeError

def unpackBytes : WrapperPayload → Except ConvError PyValue
  | .bytesValue b => .ok (.bytes b)
  | _ => .error .decodeError

/-- Embedding of `from_any` (converter.py, lines 68-128). The argument is
optional to model `if not any_proto` (a `None` argument); `not
any_proto.type_url` is an empty marker. The marker dispatch follows the
source's chain of string comparisons in order, ending in the `ValueError` on
line 128. -/
def from_any (anyProto : Option AnyProto) : Except ConvError PyValue :=
  match anyProto with
  | none => .ok .none
  | some a =>
    if a.type_url = "" then .ok .none
    else if a.type_url = TYPE_URL_PREFIX ++ "Empty" then .ok .none
    else if a.type_url = TYPE_URL_PREFIX ++ "StringValue" then unpackString a.payload
    else if a.type_url = TYPE_URL_PREFIX ++ "DoubleValue" then unpackDouble a.payload
    else if a.type_url = TYPE_URL_PREFIX ++ "FloatValue" then unpackFloat a.payload
    else if a.type_url = TYPE_URL_PREFIX ++ "Int64Value" then unpackInt64 a.payload
    else if a.type_url = TYPE_URL_PREFIX ++ "Int32Value" then unpackInt32 a.payload
    else if a.type_url = TYPE_URL_PREFIX ++ "UInt64Value" then unpackUInt64 a.payload
    else if a.type_url = TYPE_URL_PREFIX ++ "UInt32Value" then unpackUInt32 a.payload
    else if a.type_url = TYPE_URL_PREFIX ++ "BoolValue" then unpackBool a.payload
    else if a.type_url = TYPE_URL_PREFIX ++ "Timestamp" then unpackTimestamp a.payload
    else if a.type_url = TYPE_URL_PREFIX ++ "BytesValue" then unpackBytes a.payload
    else .error (.valueError ("Unsupported type: " ++ a.type_url))

/-- The supported scalar kinds of the converter: everything except a value
outside the isinstance chain. -/
def supportedScalar : PyValue → Bool
  | .other _ => false
  | _ => true

/-- Python `==` on the values in play, restricted to the comparisons the
round-trip can produce: structural equality plus Python's cross-type
equalities `bytes == bytearray` (content comparison) and `bool == int`
(`True == 1`, `False == 0`). -/
def pyEq : PyValue → PyValue → Bool
  | .none, .none => true
  | .str a, .str b => a = b
  | .bool a, .bool b => a = b
  | .bool a, .int b => (if a then (1 : Int) else 0) = b
  | .int a, .bool b => a = (if b then (1 : Int) else 0)
  | .int a, .int b => a = b
  | .float a, .float b => a = b
  | .datetime s u, .datetime t v => s = t ∧ u = v
  | .bytes a, .bytes b => a = b
  | .bytes a, .bytearray b => a = b
  | .bytearray a, .bytes b => a = b
  | .bytearray a, .bytearray b => a = b
  | _, _ => false

/-- The value `from_any` recovers from `to_any value`: the identity on every
supported kind except `bytearray`, which `to_any` packs as `BytesValue` and
`from_any` therefore returns as `bytes` with the same content (equal under
Python `==`). -/
def roundTripImage : PyValue → PyValue
  | .bytearray b => .bytes b
  | v => v

/-! ## Wire codec (`_generated/__init__.py`) -/

/-- The loop body of `_decode_varint` (_generated/__init__.py, lines
247-261) over the bytes remaining from the start offset. Mirrors
`while offset + bytes_read < len(data): byte = data[offset + bytes_read];
result |= (byte & 0x7F) << shift; bytes_read += 1; if (byte & 0x80) == 0:
break; shift += 7`. Exhausting the buffer with the continuation bit still
set falls out of the loop and returns the accumulated partial result. -/
def decodeVarintAux : List Nat → Nat → Nat → Nat → Nat × Nat
  | [], result, _, bytesRead => (result, bytesRead)
  | byte :: rest, result, shift, bytesRead =>
    let result := result ||| ((byte &&& 0x7F) <<< shift)
    let bytesRead := bytesRead + 1
    if byte &&& 0x80 = 0 then (result, bytesRead)
    else decodeVarintAux rest result (shift + 7) bytesRead

/-- Embedding of `QueryResponseWrapper._decode_varint` (_generated/__init__.py,
lines 247-261; the copies on lines 291-305 and 335-349 are textually
identical): returns `(result, bytes_read)`. -/
def decodeVarint (data : List Nat) (offset : Nat) : Nat × Nat :=
  decodeVarintAux (List.drop offset data) 0 0 0

/-- The parser state of `QueryResponseWrapper` (lines 152-160): `result_set`
columns and rows, `rows_affected`, `txseq`, `error`. Column names and the
error field are kept as the raw bytes handed to `bytes.decode("utf-8")`;
each row is the list of raw byte slices handed to `AnyProto.ParseFromString`
(both decoding steps are external library calls). -/
structure QueryResponseW where
  columns : List (List Nat)
  rows : List (List (List Nat))
  rows_affected : Nat
  txseq : Nat
  error : List Nat
deriving Repr, DecidableEq

/-- The fresh state built in `QueryResponseWrapper.__init__` before `_parse`
runs (lines 155-159). -/
def initQueryResponseW : QueryResponseW :=
  { columns := [], rows := [], rows_affected := 0, txseq := 0, error := [] }

/-- Python's slice `data[offset : offset + length]` (clamps at the buffer
end, silently short when fewer than `length` bytes remain). -/
def pySlice (data : List Nat) (offset length : Nat) : List Nat :=
  List.take length (List.drop offset data)

/-- The loop of `QueryResponseWrapper._parse_row` (lines 219-245): field 1,
wire type 2 appends the raw slice for `AnyProto.ParseFromString`; the `else`
branch breaks out of the loop. -/
def parseRowLoop (data : List Nat) (offset : Nat) (acc : List (List Nat)) :
    List (List Nat) :=
  if h : offset < data.length then
    let tagByte := data.get ⟨offset, h⟩
    let fieldNum := tagByte >>> 3
    let wireType := tagByte &&& 0x07
    if fieldNum = 1 ∧ wireType = 2 then
      let lb := decodeVarint data (offset + 1)
      parseRowLoop data (offset + 1 + lb.2 + lb.1) (acc ++ [pySlice data (offset + 1 + lb.2) lb.1])
    else acc
  else acc
termination_by data.length - offset
decreasing_by omega

/-- `QueryResponseWrapper._parse_row` (lines 219-245). -/
def parseRow (data : List Nat) : List (List Nat) :=
  parseRowLoop data 0 []

/-- The loop of `QueryResponseWrapper._parse_result_set` (lines 193-217),
threading the `(columns, rows)` component of the wrapper state: field 1/wire
type 2 appends a column name, field 2/wire type 2 parses a row from the
slice and appends it, anything else breaks. -/
def parseResultSetLoop (data : List Nat) (offset : Nat)
    (st : List (List Nat) × List (List (List Nat))) :
    List (List Nat) × List (List (List Nat)) :=
  if h : offset < data.length then
    let tagByte := data.get ⟨offset, h⟩
    let fieldNum := tagByte >>> 3
    let wireType := tagByte &&& 0x07
    if fieldNum = 1 ∧ wireType = 2 then
      let lb := decodeVarint data (offset + 1)
      parseResultSetLoop data (offset + 1 + lb.2 + lb.1)
        (st.1 ++ [pySlice data (offset + 1 + lb.2) lb.1], st.2)
    else if fieldNum = 2 ∧ wireType = 2 then
      let lb := decodeVarint data (offset + 1)
      parseResultSetLoop data (offset + 1 + lb.2 + lb.1)
        (st.1, st.2 ++ [parseRow (pySlice data (offset + 1 + lb.2) lb.1)])
    else st
  else st
termination_by data.length - offset
decreasing_by all_goals omega

/-- `QueryResponseWrapper._parse_result_set` (lines 193-217) on the slice it
receives, starting from the current `(columns, rows)` state. -/
def parseResultSet (data : List Nat)
    (st : List (List Nat) × List (List (List Nat))) :
    List (List Nat) × List (List (List Nat)) :=
  parseResultSetLoop data 0 st

/-- The loop of `QueryResponseWrapper._parse` (lines 162-191): field 1/wire
type 2 feeds the slice to `_parse_result_set`, field 2/wire type 0 sets
`rows_affected`, field 3/wire type 0 sets `txseq`, field 4/wire type 2 sets
`error`, and any other tag breaks out of the loop, returning the state
accumulated so far. -/
def parseQueryResponseLoop (data : List Nat) (offset : Nat)
    (st : QueryResponseW) : QueryResponseW :=
  if h : offset < data.length then
    let tagByte := data.get ⟨offset, h⟩
    let fieldNum := tagByte >>> 3
    let wireType := tagByte &&& 0x07
    if fieldNum = 1 ∧ wireType = 2 then
      let lb := decodeVarint data (offset + 1)
      let rs := parseResultSet (pySlice data (offset + 1 + lb.2) lb.1) (st.columns, st.rows)
      parseQueryResponseLoop data (offset + 1 + lb.2 + lb.1)
        { st with columns := rs.1, rows := rs.2 }
    else if fieldNum = 2 ∧ wireType = 0 then
      let vb := decodeVarint data (offset + 1)
      parseQueryResponseLoop data (offset + 1 + vb.2) { st with rows_affected := vb.1 }
    else if fieldNum = 3 ∧ wireType = 0 then
      let vb := decodeVarint data (offset + 1)
      parseQueryResponseLoop data (offset + 1 + vb.2) { st with txseq := vb.1 }
    else if fieldNum = 4 ∧ wireType = 2 then
      let lb := decodeVarint data (offset + 1)
      parseQueryResponseLoop data (offset + 1 + lb.2 + lb.1)
        { st with error := pySlice data (offset + 1 + lb.2) lb.1 }
    else st
  else st
termination_by data.length - offset
decreasing_by all_goals omega

/-- `QueryResponseWrapper._parse` as run by `__init__` on a response buffer. -/
def parseQueryResponse (data : List Nat) : QueryResponseW :=
  parseQueryResponseLoop data 0 initQueryResponseW

/-- The tags `_parse` recognizes: `(field_num, wire_type)` in
`{(1,2), (2,0), (3,0), (4,2)}`. -/
def qrTagKnown (tagByte : Nat) : Bool :=
  let fieldNum := tagByte >>> 3
  let wireType := tagByte &&& 0x07
  (fieldNum = 1 ∧ wireType = 2) ∨ (fieldNum = 2 ∧ wireType = 0) ∨
    (fieldNum = 3 ∧ wireType = 0) ∨ (fieldNum = 4 ∧ wireType = 2)

/-- The tags `_parse_result_set` recognizes: `(1,2)` and `(2,2)`. -/
def rsTagKnown (tagByte : Nat) : Bool :=
  let fieldNum := tagByte >>> 3
  let wireType := tagByte &&& 0x07
  (fieldNum = 1 ∧ wireType = 2) ∨ (fieldNum = 2 ∧ wireType = 2)

/-! ## Query parameters (`ha_client.py` and the request serializer) -/

/-- A key of the `parameters` dict of `HAClient._send_query`
(typed `Dict[Union[str, int], Any]`). -/
abbrev ParamKey := Sum Int String

/-- The `nv` dict built per parameter in `HAClient._send_query`
(ha_client.py, lines 133-139): optional `name`, an `ordinal`, and the
`to_any`-converted value. -/
structure NamedValueDict where
  name : Option String
  ordinal : Int
  value : AnyProto
deriving Repr, DecidableEq

/-- The parameter-encoding loop of `HAClient._send_query` (ha_client.py,
lines 129-140), on the dict's entries in iteration (= insertion) order,
carrying the running `ordinal` counter: an `int` key becomes the ordinal
itself with no name; any other key becomes `name = str(key)` with the
counter as ordinal; the counter increments after every entry. A `to_any`
failure propagates (the `TypeError` escapes `_send_query`). -/
def buildParamsGo : List (ParamKey × PyValue) → Int →
    Except ConvError (List NamedValueDict)
  | [], _ => .ok []
  | (key, value) :: rest, ordinal => do
    let a ← to_any value
    let nv : NamedValueDict :=
      { name := match key with
          | .inl _ => Option.none
          | .inr s => some s
        ordinal := match key with
          | .inl i => i
          | .inr _ => ordinal
        value := a }
    let tail ← buildParamsGo rest (ordinal + 1)
    .ok (nv :: tail)

/-- The full parameter list construction of `_send_query`: the counter
starts at 1 (`ordinal = 1`, ha_client.py line 131). -/
def buildParams (parameters : List (ParamKey × PyValue)) :
    Except ConvError (List NamedValueDict) :=
  buildParamsGo parameters 1

/-- Embedding of `DatabaseServiceStub._encode_varint` (_generated/__init__.py,
lines 107-114) for a non-negative value: emit 7-bit groups low-to-high with
the continuation bit set on all but the last. -/
def encodeVarint (value : Nat) : List Nat :=
  if value ≤ 0x7F then [value]
  else ((value &&& 0x7F) ||| 0x80) :: encodeVarint (value >>> 7)
termination_by value
decreasing_by
  simp only [Nat.shiftRight_eq_div_pow, pow_one]
  omega

/-- The `NamedValueDict` fields as `DatabaseServiceStub._serialize_named_value`
emits them (_generated/__init__.py, lines 90-105): `param.get("name")` and
`param.get("ordinal")` are truthy only for a non-empty string and a nonzero
ordinal; the `value` slot holds the wrapper's serialized bytes, modelled as
an opaque serialization of the structured `AnyProto` via its length (the
`SerializeToString` byte content is external). Fields in source order:
name (tag 0x0a), ordinal (tag 0x10), value (tag 0x1a). -/
def serialize_named_value (param : NamedValueDict) (anyBytes : List Nat) :
    List Nat :=
  (match param.name with
    | some s => if s ≠ "" then 0x0a :: (encodeVarint s.utf8ByteSize ++ (s.toUTF8.toList.map (fun b => b.toNat))) else []
    | Option.none => []) ++
  (if param.ordinal ≠ 0 then 0x10 :: encodeVarint param.ordinal.toNat else []) ++
  (if anyBytes ≠ [] then 0x1a :: (encodeVarint anyBytes.length ++ anyBytes) else [])

/-- The type markers `from_any` recognizes (converter.py, lines 75-126). -/
def knownMarkers : List String :=
  [TYPE_URL_PREFIX ++ "Empty", TYPE_URL_PREFIX ++ "StringValue",
   TYPE_URL_PREFIX ++ "DoubleValue", TYPE_URL_PREFIX ++ "FloatValue",
   TYPE_URL_PREFIX ++ "Int64Value", TYPE_URL_PREFIX ++ "Int32Value",
   TYPE_URL_PREFIX ++ "UInt64Value", TYPE_URL_PREFIX ++ "UInt32Value",
   TYPE_URL_PREFIX ++ "BoolValue", TYPE_URL_PREFIX ++ "Timestamp",
   TYPE_URL_PREFIX ++ "BytesValue"]

/-! ## Theorems -/

/-- C1, counterexample: a replica whose recorded sequence number is 10
receives a replication message `{"txseq": 5}`; `_apply_replication_message`
overwrites `txseq` with 5, strictly below its previous value, so the claim
that the recorded sequence number is never set backward is false. -/
theorem claim1_counterexample :
    ¬ ((applyReplicationMessage { dsn := "a.db", txseq := 10 }
        (some { sql := Option.none, txseq := some 5 }) true).txseq ≥ 10) := by
  decide

/-- C1, amended: message application and refresh overwrite the recorded
sequence number with the incoming value whenever one is present (the message
parsed, any SQL in it executed, a `txseq`/fetched row exists) and leave it
unchanged otherwise; no monotonicity check is performed, so the sequence
number does not move backward only under the assumption that every incoming
value is at least the current one. -/
theorem claim1_amended (r : ReplicaConnection) (m : ReplMessage) (sqlOk : Bool)
    (t : Int) (row : Option Int) (v : Int) :
    (m.txseq = some t → ¬ (m.sql.isSome = true ∧ sqlOk = false) →
      (applyReplicationMessage r (some m) sqlOk).txseq = t) ∧
    (m.txseq = Option.none → (applyReplicationMessage r (some m) sqlOk).txseq = r.txseq) ∧
    (applyReplicationMessage r Option.none sqlOk = r) ∧
    (m.txseq = some t → t ≥ r.txseq →
      (applyReplicationMessage r (some m) sqlOk).txseq ≥ r.txseq) ∧
    (row = some v → (refreshTxseq r row).txseq = v) ∧
    (row = Option.none → (refreshTxseq r row).txseq = r.txseq) ∧
    (row = some v → v ≥ r.txseq → (refreshTxseq r row).txseq ≥ r.txseq) := by
  refine ⟨fun h₁ h₂ => ?_, fun h₁ => ?_, rfl, fun h₁ h₂ => ?_, fun h₁ => ?_,
    fun h₁ => ?_, fun h₁ h₂ => ?_⟩
  · rcases hs : m.sql.isSome with _ | _ <;> rcases hk : sqlOk with _ | _ <;>
      simp_all [applyReplicationMessage]
  · rcases hs : m.sql.isSome with _ | _ <;> rcases hk : sqlOk with _ | _ <;>
      simp_all [applyReplicationMessage]
  · rcases hs : m.sql.isSome with _ | _ <;> rcases hk : sqlOk with _ | _ <;>
      simp_all [applyReplicationMessage]
  · simp [refreshTxseq, h₁]
  · simp [refreshTxseq, h₁]
  · simp [refreshTxseq, h₁]
    omega

/-- C1, witness for the amended theorem at concrete inputs: a message
carrying `txseq = 7` moves a replica at 3 to exactly 7, and a refresh
reading 9 moves it to exactly 9. -/
theorem claim1_witness :
    (applyReplicationMessage { dsn := "a.db", txseq := 3 }
      (some { sql := Option.none, txseq := some 7 }) true).txseq = 7 ∧
    (refreshTxseq { dsn := "a.db", txseq := 3 } (some 9)).txseq = 9 :=
  ⟨(claim1_amended { dsn := "a.db", txseq := 3 } { sql := Option.none, txseq := some 7 }
      true 7 (some 9) 9).1 rfl (by decide),
   (claim1_amended { dsn := "a.db", txseq := 3 } { sql := Option.none, txseq := some 7 }
      true 7 (some 9) 9).2.2.2.2.1 rfl⟩

/-- C2: `is_replica_updated` is true iff the lookup finds a replica whose
`txseq` is at least the required sequence number, and false otherwise
(including not-found); `get_replica` returns the single loaded replica when
exactly one is loaded and the name is empty, otherwise an exact dictionary
lookup; with two or more loaded replicas (whose registry keys, being
directory file names, are non-empty) an empty name finds nothing. -/
theorem claim2 (rs : Replicas) (name : String) (seq : Int) :
    (is_replica_updated rs name seq = true ↔
      ∃ r, get_replica rs name = some r ∧ r.txseq ≥ seq) ∧
    (∀ k r, rs = [(k, r)] → get_replica rs "" = some r) ∧
    (¬ (rs.length = 1 ∧ name = "") → get_replica rs name = List.lookup name rs) ∧
    (2 ≤ rs.length → (∀ p ∈ rs, p.1 ≠ "") → get_replica rs "" = Option.none) := by
  refine ⟨?_, ?_, ?_, ?_⟩
  · unfold is_replica_updated
    rcases h : get_replica rs name with _ | r
    · simp [h]
    · simp [h]
  · rintro k r rfl
    simp [get_replica]
  · intro h
    simp [get_replica, h]
  · intro hlen hkeys
    have hlook : ∀ l : Replicas, (∀ p ∈ l, p.1 ≠ "") → List.lookup "" l = Option.none := by
      intro l
      induction l with
      | nil => intro _; rfl
      | cons p t ih =>
        intro hp
        have hne : p.1 ≠ "" := hp p (List.mem_cons_self p t)
        have hb : (("" : String) == p.1) = false := by
          simp only [beq_eq_false_iff_ne, ne_eq]
          exact fun h => hne h.symm
        simp only [List.lookup, hb]
        exact ih fun q hq => hp q (List.mem_cons_of_mem p hq)
    have hne1 : ¬ (rs.length = 1 ∧ ("" : String) = "") :=
      fun h => absurd h.1 (by omega)
    unfold get_replica
    rw [if_neg hne1]
    exact hlook rs hkeys

/-- C2, witness: the spec's own examples — with the single replica `"a.db"`
at sequence 10, the empty-name lookup returns it, `is_replica_updated` is
true at 10; with two replicas the empty name is not found. -/
theorem claim2_witness :
    get_replica [("a.db", { dsn := "a.db", txseq := 10 })] "" =
      some { dsn := "a.db", txseq := 10 } ∧
    get_replica [("a.db", { dsn := "a.db", txseq := 10 }),
      ("b.db", { dsn := "b.db", txseq := 3 })] "" = Option.none ∧
    is_replica_updated [("a.db", { dsn := "a.db", txseq := 10 })] "a.db" 10 = true :=
  ⟨(claim2 [("a.db", { dsn := "a.db", txseq := 10 })] "" 0).2.1 "a.db"
      { dsn := "a.db", txseq := 10 } rfl,
   (claim2 [("a.db", { dsn := "a.db", txseq := 10 }),
      ("b.db", { dsn := "b.db", txseq := 3 })] "" 0).2.2.2 (by decide) (by decide),
   (claim2 [("a.db", { dsn := "a.db", txseq := 10 })] "a.db" 10).1.mpr
     ⟨{ dsn := "a.db", txseq := 10 }, by decide, by decide⟩⟩

/-- C3: `HAConnection.query` executes a statement on the local replica
exactly when the trimmed statement case-insensitively starts with SELECT,
PRAGMA, EXPLAIN or WITH, a local replica handle exists, a replicas manager
exists, and the manager reports the replica up to date at the connection's
last-known remote sequence number; in every other case (in particular for
every statement failing the lexical check) it goes to the remote server, and
`HAConnection.run` decides identically. -/
theorem claim3 (hasReplica hasManager : Bool) (rs : Replicas)
    (replicationId : String) (txseq : Int) (sql : List Char) :
    (queryRoute hasReplica hasManager rs replicationId txseq sql = Route.replica ↔
      is_select_query sql = true ∧ hasReplica = true ∧ hasManager = true ∧
        is_replica_updated rs replicationId txseq = true) ∧
    (is_select_query sql = false →
      queryRoute hasReplica hasManager rs replicationId txseq sql = Route.remote) ∧
    (queryRoute hasReplica hasManager rs replicationId txseq sql = Route.replica ∨
      queryRoute hasReplica hasManager rs replicationId txseq sql = Route.remote) ∧
    (runRoute hasReplica hasManager rs replicationId txseq sql =
      queryRoute hasReplica hasManager rs replicationId txseq sql) := by
  refine ⟨?_, ?_, ?_, rfl⟩
  · unfold queryRoute
    split
    · rename_i h
      simp only [Bool.and_eq_true] at h
      exact ⟨fun _ => ⟨h.1.2, h.1.1.1, h.1.1.2, h.2⟩, fun _ => rfl⟩
    · rename_i h
      simp only [Bool.and_eq_true, not_and] at h
      constructor
      · intro hc
        simp at hc
      · rintro ⟨h₁, h₂, h₃, h₄⟩
        exact absurd h₄ (h ⟨⟨h₂, h₃⟩, h₁⟩)
  · intro h
    simp [queryRoute, h]
  · unfold queryRoute
    split
    · exact Or.inl rfl
    · exact Or.inr rfl

/-- C3, witness: the spec's routing examples — `"select * from t"` with an
up-to-date replica routes locally, and `"insert into t values(1)"` routes
remotely even with an up-to-date replica. -/
theorem claim3_witness :
    queryRoute true true [("t", { dsn := "t", txseq := 5 })] "t" 5
      "select * from t".toList = Route.replica ∧
    queryRoute true true [("t", { dsn := "t", txseq := 5 })] "t" 5
      "insert into t values(1)".toList = Route.remote :=
  ⟨(claim3 true true [("t", { dsn := "t", txseq := 5 })] "t" 5
      "select * from t".toList).1.mpr ⟨by decide, rfl, rfl, by decide⟩,
   (claim3 true true [("t", { dsn := "t", txseq := 5 })] "t" 5
      "insert into t values(1)".toList).2.1 (by decide)⟩

/-- C9, counterexample: a 100-byte file whose 16th byte is `0x41` rather
than the NUL of the full SQLite magic is accepted by `_is_sqlite_file` —
the code compares only the 15 bytes `b"SQLite format 3"`, so the claim that
only files whose first 16 bytes equal `SQLite format 3\x00` are loadable is
false. -/
theorem claim9_counterexample :
    is_sqlite_file (sqliteMagic ++ 0x41 :: List.replicate 84 0) = true ∧
    List.take 16 (sqliteMagic ++ 0x41 :: List.replicate 84 0) ≠ sqliteMagic16 := by
  constructor
  · decide
  · decide

/-- C9, amended: a file is treated as a loadable replica iff its size is at
least 100 bytes and its first 15 bytes are exactly `SQLite format 3`; the
16th byte (the trailing NUL of the full SQLite header magic) is not
checked. -/
theorem claim9_amended (file : List Nat) :
    is_sqlite_file file = true ↔
      100 ≤ file.length ∧ List.take 15 file = sqliteMagic := by
  by_cases h : file.length < 100
  · simp only [is_sqlite_file, if_pos h]
    constructor
    · intro hc
      cases hc
    · intro hc
      omega
  · simp only [is_sqlite_file, if_neg h, startsWithBytes]
    have hm : sqliteMagic.length = 15 := by decide
    rw [hm, List.take_take]
    simp only [decide_eq_true_eq]
    constructor
    · intro hc
      exact ⟨by omega, by simpa using hc⟩
    · intro hc
      simpa using hc.2

/-- Helper: the integer branch of `to_any` (converter.py, lines 40-44). -/
theorem to_any_int_eq (i : Int) :
    to_any (PyValue.int i) =
      if -2147483648 ≤ i ∧ i ≤ 2147483647 then
        Except.ok (packAny "Int32Value" (WrapperPayload.int32Value i))
      else
        Except.ok (packAny "Int64Value" (WrapperPayload.int64Value i)) := by
  simp [to_any, isInstStr, isInstBool, isInstInt]

/-- C5: for every supported scalar value, decoding the encoded envelope
returns the original value under Python `==`: `to_any` succeeds and
`from_any` recovers the value exactly (a `bytearray` comes back as `bytes`
of equal content, timestamps round-trip exactly at the microsecond
resolution of `datetime`, doubles are transported bit-for-bit). -/
theorem claim5 (v : PyValue) (h : supportedScalar v = true) :
    ∃ a, to_any v = Except.ok a ∧
      from_any (some a) = Except.ok (roundTripImage v) ∧
      pyEq v (roundTripImage v) = true := by
  cases v with
  | none => exact ⟨packAny "Empty" .empty, rfl, rfl, rfl⟩
  | str s => exact ⟨packAny "StringValue" (.stringValue s), rfl, rfl, by simp [pyEq, roundTripImage]⟩
  | bool b => exact ⟨packAny "BoolValue" (.boolValue b), rfl, rfl, by simp [pyEq, roundTripImage]⟩
  | int i =>
    by_cases hr : -2147483648 ≤ i ∧ i ≤ 2147483647
    · exact ⟨packAny "Int32Value" (.int32Value i),
        by rw [to_any_int_eq, if_pos hr], rfl, by simp [pyEq, roundTripImage]⟩
    · exact ⟨packAny "Int64Value" (.int64Value i),
        by rw [to_any_int_eq, if_neg hr], rfl, by simp [pyEq, roundTripImage]⟩
  | float bits => exact ⟨packAny "DoubleValue" (.doubleValue bits), rfl, rfl, by simp [pyEq, roundTripImage]⟩
  | datetime s us =>
    refine ⟨packAny "Timestamp" (.timestamp s (us * 1000)), rfl, ?_, by simp [pyEq, roundTripImage]⟩
    have h1 : from_any (some (packAny "Timestamp" (.timestamp s (us * 1000)))) =
        Except.ok (PyValue.datetime s (us * 1000 / 1000)) := rfl
    have h2 : us * 1000 / 1000 = us := by omega
    rw [h1, h2]
    rfl
  | bytes b => exact ⟨packAny "BytesValue" (.bytesValue b), rfl, rfl, by simp [pyEq, roundTripImage]⟩
  | bytearray b => exact ⟨packAny "BytesValue" (.bytesValue b), rfl, rfl, by simp [pyEq, roundTripImage]⟩
  | other t => simp [supportedScalar] at h

/-- C5, witness: the round trip at the concrete value `7`. -/
theorem claim5_witness :
    supportedScalar (PyValue.int 7) = true ∧
    ∃ a, to_any (PyValue.int 7) = Except.ok a ∧
      from_any (some a) = Except.ok (roundTripImage (PyValue.int 7)) ∧
      pyEq (PyValue.int 7) (roundTripImage (PyValue.int 7)) = true :=
  ⟨by decide, claim5 (PyValue.int 7) (by decide)⟩

/-- C6: `to_any` packs every boolean as the Bool variant (the `bool`
isinstance check precedes the `int` one, so a boolean is never packed as
Int32/Int64), packs a non-boolean integer as Int32 iff it lies in
`[-2147483648, 2147483647]` and as Int64 otherwise, and in particular sends
`2147483647` and `-2147483648` to Int32 and `2147483648` and `-2147483649`
to Int64. -/
theorem claim6 (b : Bool) (i : Int) :
    to_any (PyValue.bool b) =
      Except.ok (packAny "BoolValue" (WrapperPayload.boolValue b)) ∧
    (to_any (PyValue.int i) =
      if -2147483648 ≤ i ∧ i ≤ 2147483647 then
        Except.ok (packAny "Int32Value" (WrapperPayload.int32Value i))
      else
        Except.ok (packAny "Int64Value" (WrapperPayload.int64Value i))) ∧
    to_any (PyValue.int 2147483647) =
      Except.ok (packAny "Int32Value" (WrapperPayload.int32Value 2147483647)) ∧
    to_any (PyValue.int 2147483648) =
      Except.ok (packAny "Int64Value" (WrapperPayload.int64Value 2147483648)) ∧
    to_any (PyValue.int (-2147483648)) =
      Except.ok (packAny "Int32Value" (WrapperPayload.int32Value (-2147483648))) ∧
    to_any (PyValue.int (-2147483649)) =
      Except.ok (packAny "Int64Value" (WrapperPayload.int64Value (-2147483649))) :=
  ⟨by simp [to_any, isInstStr, isInstBool], to_any_int_eq i,
   by rw [to_any_int_eq]; norm_num, by rw [to_any_int_eq]; norm_num,
   by rw [to_any_int_eq]; norm_num, by rw [to_any_int_eq]; norm_num⟩

/-- C7: `to_any` fails with the `TypeError` (the UnsupportedType report) iff
the input is outside the supported scalar kinds; `from_any` returns null for
an absent envelope or an empty marker, and fails with the `ValueError`
(UnsupportedType, distinct from the `DecodeError` of malformed payload
bytes) iff the marker is non-empty and outside the known marker set — an
unknown marker is never silently coerced. -/
theorem claim7 (v : PyValue) (a : AnyProto) (p : WrapperPayload) :
    ((∃ msg, to_any v = Except.error (ConvError.typeError msg)) ↔
      supportedScalar v = false) ∧
    from_any Option.none = Except.ok PyValue.none ∧
    from_any (some { type_url := "", payload := p }) = Except.ok PyValue.none ∧
    ((∃ msg, from_any (some a) = Except.error (ConvError.valueError msg)) ↔
      a.type_url ≠ "" ∧ a.type_url ∉ knownMarkers) := by
  refine ⟨?_, rfl, rfl, ?_⟩
  · cases v with
    | int i =>
      rw [to_any_int_eq]
      by_cases hr : -2147483648 ≤ i ∧ i ≤ 2147483647
      · simp [if_pos hr, supportedScalar]
      · simp [if_neg hr, supportedScalar]
    | _ =>
      simp [to_any, isInstStr, isInstBool, isInstInt, isInstFloat, isInstDatetime,
        isInstBytes, isInstBytearray, supportedScalar]
  · rcases a with ⟨url, pl⟩
    constructor
    · rintro ⟨msg, hmsg⟩
      constructor
      · intro h0
        subst h0
        rw [show from_any (some ⟨"", pl⟩) = Except.ok PyValue.none from rfl] at hmsg
        exact absurd hmsg (by simp)
      · intro hmem
        simp only [knownMarkers, List.mem_cons, List.not_mem_nil, or_false] at hmem
        rcases hmem with h | h | h | h | h | h | h | h | h | h | h <;> subst h
        · rw [show from_any (some ⟨TYPE_URL_PREFIX ++ "Empty", pl⟩) =
            Except.ok PyValue.none from rfl] at hmsg
          exact absurd hmsg (by simp)
        · rw [show from_any (some ⟨TYPE_URL_PREFIX ++ "StringValue", pl⟩) =
            unpackString pl from rfl] at hmsg
          cases pl <;> simp [unpackString] at hmsg
        · rw [show from_any (some ⟨TYPE_URL_PREFIX ++ "DoubleValue", pl⟩) =
            unpackDouble pl from rfl] at hmsg
          cases pl <;> simp [unpackDouble] at hmsg
        · rw [show from_any (some ⟨TYPE_URL_PREFIX ++ "FloatValue", pl⟩) =
            unpackFloat pl from rfl] at hmsg
          cases pl <;> simp [unpackFloat] at hmsg
        · rw [show from_any (some ⟨TYPE_URL_PREFIX ++ "Int64Value", pl⟩) =
            unpackInt64 pl from rfl] at hmsg
          cases pl <;> simp [unpackInt64] at hmsg
        · rw [show from_any (some ⟨TYPE_URL_PREFIX ++ "Int32Value", pl⟩) =
            unpackInt32 pl from rfl] at hmsg
          cases pl <;> simp [unpackInt32] at hmsg
        · rw [show from_any (some ⟨TYPE_URL_PREFIX ++ "UInt64Value", pl⟩) =
            unpackUInt64 pl from rfl] at hmsg
          cases pl <;> simp [unpackUInt64] at hmsg
        · rw [show from_any (some ⟨TYPE_URL_PREFIX ++ "UInt32Value", pl⟩) =
            unpackUInt32 pl from rfl] at hmsg
          cases pl <;> simp [unpackUInt32] at hmsg
        · rw [show from_any (some ⟨TYPE_URL_PREFIX ++ "BoolValue", pl⟩) =
            unpackBool pl from rfl] at hmsg
          cases pl <;> simp [unpackBool] at hmsg
        · rw [show from_any (some ⟨TYPE_URL_PREFIX ++ "Timestamp", pl⟩) =
            unpackTimestamp pl from rfl] at hmsg
          cases pl <;> simp [unpackTimestamp] at hmsg
        · rw [show from_any (some ⟨TYPE_URL_PREFIX ++ "BytesValue", pl⟩) =
            unpackBytes pl from rfl] at hmsg
          cases pl <;> simp [unpackBytes] at hmsg
    · rintro ⟨h0, hnot⟩
      simp only [knownMarkers, List.mem_cons, List.not_mem_nil, or_false, not_or] at hnot
      obtain ⟨n1, n2, n3, n4, n5, n6, n7, n8, n9, n10, n11⟩ := hnot
      refine ⟨"Unsupported type: " ++ url, ?_⟩
      simp only [from_any]
      rw [if_neg h0, if_neg n1, if_neg n2, if_neg n3, if_neg n4, if_neg n5, if_neg n6,
        if_neg n7, if_neg n8, if_neg n9, if_neg n10, if_neg n11]

/-- C7, witness: a value of an unsupported kind (a Python `set`) makes
`to_any` fail with the `TypeError`, and an unknown marker makes `from_any`
fail with the `ValueError`. -/
theorem claim7_witness :
    (∃ msg, to_any (PyValue.other "set") = Except.error (ConvError.typeError msg)) ∧
    (∃ msg, from_any (some (AnyProto.mk
      "type.googleapis.com/google.protobuf.Duration" WrapperPayload.empty)) =
      Except.error (ConvError.valueError msg)) :=
  ⟨(claim7 (PyValue.other "set")
      (AnyProto.mk "type.googleapis.com/google.protobuf.Duration" WrapperPayload.empty)
      WrapperPayload.empty).1.mpr rfl,
   (claim7 (PyValue.other "set")
      (AnyProto.mk "type.googleapis.com/google.protobuf.Duration" WrapperPayload.empty)
      WrapperPayload.empty).2.2.2.mpr (by constructor <;> decide)⟩

/-- C9, witness for the amended theorem: a 100-byte file carrying the full
16-byte magic is recognized. -/
theorem claim9_witness :
    is_sqlite_file (sqliteMagic16 ++ List.replicate 84 0) = true :=
  (claim9_amended (sqliteMagic16 ++ List.replicate 84 0)).mpr
    ⟨by decide, by decide⟩

/-- Helper: the varint decoding loop consumes at most the bytes remaining in
the buffer. -/
theorem decodeVarintAux_bytesRead_le (rem : List Nat) :
    ∀ result shift bytesRead,
      (decodeVarintAux rem result shift bytesRead).2 ≤ bytesRead + rem.length := by
  induction rem with
  | nil => intro r s b; simp [decodeVarintAux]
  | cons byte rest ih =>
    intro r s b
    simp only [decodeVarintAux]
    split
    · simp
    · calc (decodeVarintAux rest (r ||| ((byte &&& 127) <<< s)) (s + 7) (b + 1)).2
          ≤ (b + 1) + rest.length := ih _ _ _
        _ ≤ b + (rest.length + 1) := by omega
        _ = b + (byte :: rest).length := by simp

/-- C4, counterexample: the one-byte buffer `0x80` is cut mid-varint (its
continuation bit is set and no byte follows), yet `_decode_varint` returns
the pair `(0, 1)` — a silently zero-filled partial value with one byte
consumed — and the parser of a length-delimited field whose declared length
5 exceeds the single remaining byte silently stores the truncated slice.
No parse error is reported anywhere (the decoders have no error channel),
so the claim that truncated input fails cleanly with a reported parse error
is false. -/
theorem claim4_counterexample :
    decodeVarint [0x80] 0 = (0, 1) ∧
    parseQueryResponse [0x22, 0x05, 0x41] =
      { columns := [], rows := [], rows_affected := 0, txseq := 0, error := [0x41] } := by
  constructor
  · decide
  · simp +decide [parseQueryResponse, parseQueryResponseLoop, decodeVarint,
      decodeVarintAux, pySlice, initQueryResponseW]

/-- C4, amended: the decoders never read past the buffer end — the varint
loop consumes at most the bytes available after the offset, and decoding at
or beyond the end consumes nothing — but truncation is not reported: a
varint cut mid-field yields the partially accumulated value (`0x80` alone
decodes to `(0, 1)`) and a length-delimited field cut short yields the
truncated slice, with no error value of any kind. -/
theorem claim4_amended (data : List Nat) (offset : Nat) :
    (decodeVarint data offset).2 ≤ data.length - offset ∧
    (data.length ≤ offset → decodeVarint data offset = (0, 0)) ∧
    decodeVarint [0x80] 0 = (0, 1) ∧
    parseQueryResponse [0x22, 0x05, 0x41] =
      { columns := [], rows := [], rows_affected := 0, txseq := 0, error := [0x41] } := by
  refine ⟨?_, ?_, by decide, ?_⟩
  · have h := decodeVarintAux_bytesRead_le (List.drop offset data) 0 0 0
    simpa [decodeVarint] using h
  · intro h
    have hd : List.drop offset data = [] := List.drop_eq_nil_of_le h
    simp [decodeVarint, hd, decodeVarintAux]
  · simp +decide [parseQueryResponse, parseQueryResponseLoop, decodeVarint,
      decodeVarintAux, pySlice, initQueryResponseW]

/-- C4, witness for the amended theorem: decoding at the end of an empty
buffer returns `(0, 0)` without reading anything. -/
theorem claim4_witness :
    decodeVarint [] 0 = (0, 0) :=
  (claim4_amended [] 0).2.1 (by decide)

/-- C8: the tagged-field readers stop at the first tag whose
`(field_number, wire_type)` pair is not recognized for the message being
parsed, returning exactly the state (the fields) accumulated so far and
ignoring everything after that tag — an unknown field is never skipped: in
the concrete buffer below, the recognized field `txseq = 5` is kept, the
unknown tag `0x28` (field 5) ends the message, and the well-formed
`txseq = 9` field after it is never applied. -/
theorem claim8 (data : List Nat) (offset : Nat) (st : QueryResponseW)
    (cols : List (List Nat)) (rows : List (List (List Nat)))
    (h : offset < data.length) :
    (qrTagKnown (data.get ⟨offset, h⟩) = false →
      parseQueryResponseLoop data offset st = st) ∧
    (rsTagKnown (data.get ⟨offset, h⟩) = false →
      parseResultSetLoop data offset (cols, rows) = (cols, rows)) ∧
    parseQueryResponse [0x18, 0x05, 0x28, 0x18, 0x09] =
      { columns := [], rows := [], rows_affected := 0, txseq := 5, error := [] } := by
  refine ⟨?_, ?_, ?_⟩
  · intro hTag
    simp only [qrTagKnown, decide_eq_false_iff_not, not_or] at hTag
    obtain ⟨h1, h2, h3, h4⟩ := hTag
    unfold parseQueryResponseLoop
    rw [dif_pos h]
    simp only [if_neg h1, if_neg h2, if_neg h3, if_neg h4]
  · intro hTag
    simp only [rsTagKnown, decide_eq_false_iff_not, not_or] at hTag
    obtain ⟨h1, h2⟩ := hTag
    unfold parseResultSetLoop
    rw [dif_pos h]
    simp only [if_neg h1, if_neg h2]
  · simp +decide [parseQueryResponse, parseQueryResponseLoop, decodeVarint,
      decodeVarintAux, pySlice, initQueryResponseW]

/-- C8, witness: inside the buffer `[0x18, 0x05, 0x28, 0x18, 0x09]` the tag
`0x28` at offset 2 is unknown to `_parse` (field 5), so the loop returns the
state holding the already-decoded `txseq = 5` unchanged; and `0x28` is
likewise unknown to `_parse_result_set`. -/
theorem claim8_witness :
    parseQueryResponseLoop [0x18, 0x05, 0x28, 0x18, 0x09] 2
      { columns := [], rows := [], rows_affected := 0, txseq := 5, error := [] } =
      { columns := [], rows := [], rows_affected := 0, txseq := 5, error := [] } ∧
    parseResultSetLoop [0x28] 0 ([[0x61]], []) = ([[0x61]], []) :=
  ⟨(claim8 [0x18, 0x05, 0x28, 0x18, 0x09] 2
      { columns := [], rows := [], rows_affected := 0, txseq := 5, error := [] }
      [] [] (by decide)).1 (by decide),
   (claim8 [0x28] 0 initQueryResponseW [[0x61]] [] (by decide)).2.1 (by decide)⟩

/-- Helper: the parameter loop of `_send_query`, run from an arbitrary value
of the `ordinal` counter: the k-th produced dict (0-based index `i`) takes
the key itself as ordinal with no name for an `int` key, and `str(key)` as
name with counter value `o + i` as ordinal otherwise; the counter advances
on every entry. -/
theorem buildParamsGo_spec :
    ∀ (ps : List (ParamKey × PyValue)) (o : Int) (l : List NamedValueDict),
      buildParamsGo ps o = Except.ok l →
      l.length = ps.length ∧
      ∀ i (hi : i < ps.length),
        ∃ a, to_any (ps.get ⟨i, hi⟩).2 = Except.ok a ∧
          (∀ k, (ps.get ⟨i, hi⟩).1 = Sum.inl k →
            l.get? i = some ⟨Option.none, k, a⟩) ∧
          (∀ s, (ps.get ⟨i, hi⟩).1 = Sum.inr s →
            l.get? i = some ⟨some s, o + i, a⟩) := by
  intro ps
  induction ps with
  | nil =>
    intro o l hok
    simp only [buildParamsGo] at hok
    cases hok
    exact ⟨rfl, fun i hi => absurd hi (by simp)⟩
  | cons p rest ih =>
    intro o l hok
    obtain ⟨key, v⟩ := p
    simp only [buildParamsGo, bind, Except.bind] at hok
    rcases ha : to_any v with e | a <;> rw [ha] at hok
    · simp at hok
    · rcases ht : buildParamsGo rest (o + 1) with e | tail <;> rw [ht] at hok
      · simp at hok
      · simp only [Except.ok.injEq] at hok
        subst hok
        obtain ⟨hlen, hind⟩ := ih (o + 1) tail ht
        refine ⟨by simpa using hlen, fun i hi => ?_⟩
        cases i with
        | zero =>
          refine ⟨a, by simpa using ha, ?_, ?_⟩
          · rintro k hk
            rcases key with k' | s' <;> simp_all
          · rintro s hs
            rcases key with k' | s' <;> simp_all
        | succ n =>
          have hn : n < rest.length := by
            simpa using Nat.lt_of_succ_lt_succ hi
          obtain ⟨a', ha', h1, h2⟩ := hind n hn
          refine ⟨a', by simpa using ha', ?_, ?_⟩
          · intro k hk
            have := h1 k (by simpa using hk)
            simpa using this
          · intro s hs
            have := h2 s (by simpa using hs)
            have hcast : (o + 1) + (n : Int) = o + ((n : Int) + 1) := by ring
            rw [List.get?_cons_succ, this, hcast]
            norm_num

/-- C10: for every parameters dict (as its entry list in iteration order),
the k-th entry (1-based) becomes a NamedValue whose value is `to_any` of the
entry's value; an `int` key becomes the ordinal itself with no name, any
other key becomes `name = str(key)` with ordinal `k`; the position counter
advances for every entry, including int-keyed ones. -/
theorem claim10 (ps : List (ParamKey × PyValue)) (l : List NamedValueDict)
    (hok : buildParams ps = Except.ok l) :
    l.length = ps.length ∧
    ∀ i (hi : i < ps.length),
      ∃ a, to_any (ps.get ⟨i, hi⟩).2 = Except.ok a ∧
        (∀ k, (ps.get ⟨i, hi⟩).1 = Sum.inl k →
          l.get? i = some ⟨Option.none, k, a⟩) ∧
        (∀ s, (ps.get ⟨i, hi⟩).1 = Sum.inr s →
          l.get? i = some ⟨some s, (i : Int) + 1, a⟩) := by
  obtain ⟨hlen, hind⟩ := buildParamsGo_spec ps 1 l hok
  refine ⟨hlen, fun i hi => ?_⟩
  obtain ⟨a, ha, h1, h2⟩ := hind i hi
  refine ⟨a, ha, h1, fun s hs => ?_⟩
  rw [h2 s hs]
  have : (1 : Int) + (i : Int) = (i : Int) + 1 := by ring
  rw [this]

/-- C10, witness: the dict `{"x": 7, 5: True}` — the string-keyed first
entry gets `name = "x"` and ordinal 1, the int-keyed second entry gets
ordinal 5 and no name, and the counter advanced across both. -/
theorem claim10_witness :
    ∃ a, to_any (PyValue.int 7) = Except.ok a ∧
      [NamedValueDict.mk (some "x") 1 (packAny "Int32Value" (WrapperPayload.int32Value 7)),
       NamedValueDict.mk Option.none 5 (packAny "BoolValue" (WrapperPayload.boolValue true))].get?
        0 = some ⟨some "x", (0 : Int) + 1, a⟩ := by
  obtain ⟨a, ha, h1, h2⟩ :=
    (claim10 [(Sum.inr "x", PyValue.int 7), (Sum.inl 5, PyValue.bool true)]
      [NamedValueDict.mk (some "x") 1 (packAny "Int32Value" (WrapperPayload.int32Value 7)),
       NamedValueDict.mk Option.none 5 (packAny "BoolValue" (WrapperPayload.boolValue true))]
      rfl).2 0 (by decide)
  exact ⟨a, ha, h2 "x" rfl⟩

end LitesqlHA
